import Mathlib

/-!
Verification of the Oblivion-Engine railway optimization core against its
specification.  The development shallowly embeds the two solver modules:

* `core/optimization/solver.py` (`RailwaySolver`): the CP-SAT based exact
  scheduler.  Timestamps are embedded as integer minutes; a train field that
  `pd.to_datetime` cannot parse is embedded as `none`.  The external CP-SAT
  engine is modelled abstractly: a candidate answer is a status together with
  a boolean valuation of the decision variables, and engine honesty (an
  OPTIMAL/FEASIBLE answer satisfies every constraint the code added to the
  model) appears as a hypothesis of the theorems.

* `dashboards/dashboard.py` (`run_optimization` / `count_conflicts`): the
  greedy priority-ordered heuristic, embedded as a pure state-passing fold.
-/

namespace Railway

/-- A row of the trains DataFrame as consumed by `RailwaySolver`.
`arrival_time`/`departure_time` are `none` when the stored value cannot be
parsed as a timestamp (`pd.to_datetime` raises). Times are integer minutes. -/
structure TrainRec where
  train_id : String
  arrival_time : Option Int
  departure_time : Option Int
  delay_minutes : Int := 0
deriving DecidableEq, Repr

/-- The hardcoded buffer of `_times_overlap` and `count_conflicts`:
`buffer = timedelta(minutes=5)`. -/
def bufferMinutes : Int := 5

/-- The arithmetic core of `RailwaySolver._times_overlap` (solver.py line 96):
`not (dep1 + buffer <= arr2 or dep2 + buffer <= arr1)`, with the buffer kept
as a parameter exactly as the local variable `buffer` in the source. -/
def overlapFormula (a1 d1 a2 d2 buf : Int) : Bool :=
  !(decide (d1 + buf ≤ a2) || decide (d2 + buf ≤ a1))

/-- `RailwaySolver._times_overlap` (solver.py lines 85-98): parses the four
timestamps and applies `overlapFormula` with a 5 minute buffer; the bare
`except: return False` makes any parse failure yield `False`. -/
def timesOverlap (t1 t2 : TrainRec) : Bool :=
  match t1.arrival_time, t1.departure_time, t2.arrival_time, t2.departure_time with
  | some a1, some d1, some a2, some d2 => overlapFormula a1 d1 a2 d2 bufferMinutes
  | _, _, _, _ => false

/-- A train of the trains DataFrame is well formed when both timestamps parse
and arrival strictly precedes departure. -/
def WellFormed (t : TrainRec) : Prop :=
  ∃ a d, t.arrival_time = some a ∧ t.departure_time = some d ∧ a < d

theorem overlapFormula_comm (a1 d1 a2 d2 buf : Int) :
    overlapFormula a1 d1 a2 d2 buf = overlapFormula a2 d2 a1 d1 buf := by
  simp only [overlapFormula, Bool.or_comm]

theorem timesOverlap_comm (t1 t2 : TrainRec) :
    timesOverlap t1 t2 = timesOverlap t2 t1 := by
  unfold timesOverlap
  rcases t1.arrival_time with _ | a1 <;> rcases t1.departure_time with _ | d1 <;>
    rcases t2.arrival_time with _ | a2 <;> rcases t2.departure_time with _ | d2 <;>
    simp [overlapFormula_comm]

/-- C6: the conflict predicate is symmetric — `_times_overlap(t1, t2)` equals
`_times_overlap(t2, t1)` for all train records — and on well-formed intervals
the buffered formula (for any buffer) is symmetric and equal to
`NOT (d1 + buffer <= a2 OR d2 + buffer <= a1)`. -/
theorem conflict_symmetry :
    (∀ t1 t2 : TrainRec, timesOverlap t1 t2 = timesOverlap t2 t1) ∧
    (∀ a1 d1 a2 d2 buf : Int, a1 < d1 → a2 < d2 →
      overlapFormula a1 d1 a2 d2 buf = overlapFormula a2 d2 a1 d1 buf ∧
      (overlapFormula a1 d1 a2 d2 buf = true ↔ ¬(d1 + buf ≤ a2 ∨ d2 + buf ≤ a1))) := by
  refine ⟨timesOverlap_comm, fun a1 d1 a2 d2 buf _ _ => ⟨overlapFormula_comm .., ?_⟩⟩
  simp [overlapFormula, not_or]

/-- Witness for C6 at a concrete well-formed input. -/
theorem conflict_symmetry_witness :
    overlapFormula 0 10 3 12 5 = overlapFormula 3 12 0 10 5 ∧
    (overlapFormula 0 10 3 12 5 = true ↔ ¬((10 : Int) + 5 ≤ 3 ∨ (12 : Int) + 5 ≤ 0)) :=
  conflict_symmetry.2 0 10 3 12 5 (by decide) (by decide)

/-- C7: with the hardcoded 5 minute buffer, two well-formed intervals whose
gap (from the first departure to the second arrival) is exactly the buffer do
not conflict, and a gap of buffer minus one minute does conflict. -/
theorem buffer_boundary (id1 id2 : String) (a1 d1 a2 d2 : Int)
    (h1 : a1 < d1) (h2 : a2 < d2) :
    (a2 = d1 + bufferMinutes →
      timesOverlap ⟨id1, some a1, some d1, 0⟩ ⟨id2, some a2, some d2, 0⟩ = false) ∧
    (a2 = d1 + bufferMinutes - 1 →
      timesOverlap ⟨id1, some a1, some d1, 0⟩ ⟨id2, some a2, some d2, 0⟩ = true) := by
  constructor <;> intro hgap <;>
    simp only [timesOverlap, overlapFormula, bufferMinutes] at * <;>
    simp only [Bool.not_eq_true', Bool.not_eq_false', Bool.or_eq_false_iff,
      Bool.or_eq_true_iff, decide_eq_true_eq, decide_eq_false_iff_not] <;>
    omega

/-- Witness for C7 at a concrete input: [0,10] against [15,25] (gap 5, no
conflict) and [0,10] against [14,24] (gap 4, conflict). -/
theorem buffer_boundary_witness :
    timesOverlap ⟨"T1", some 0, some 10, 0⟩ ⟨"T2", some 15, some 25, 0⟩ = false ∧
    timesOverlap ⟨"T1", some 0, some 10, 0⟩ ⟨"T3", some 14, some 24, 0⟩ = true :=
  ⟨(buffer_boundary "T1" "T2" 0 10 15 25 (by decide) (by decide)).1 (by decide),
   (buffer_boundary "T1" "T3" 0 10 14 24 (by decide) (by decide)).2 (by decide)⟩

/-! ### The exact solver: `RailwaySolver` (core/optimization/solver.py) -/

/-- A valuation of the CP-SAT boolean decision variables
`platform_vars[train_id][platform]`.  The Python code keys the variables by
train id and platform name (dict of dicts), so rows sharing a train id share
variables; the function representation reproduces exactly that sharing. -/
abbrev Sol := String → String → Bool

/-- The exactly-one constraint added at solver.py lines 47-51:
`sum(platform_vars[train_id][p] for p in platforms) == 1`, read on a candidate
valuation. -/
def exactlyOneHolds (platforms : List String) (sol : Sol) (id : String) : Prop :=
  (platforms.map (fun p => (sol id p).toNat)).sum = 1

/-- The mutual-exclusion constraints added by `_add_time_constraints`
(solver.py lines 70-83): for every ordered pair i < j of rows and every
platform, if `_times_overlap` holds, the two variables sum to at most 1. -/
def mutexHolds (trains : List TrainRec) (platforms : List String) (sol : Sol) : Prop :=
  ∀ i j : Fin trains.length, i < j → ∀ p ∈ platforms,
    timesOverlap (trains.get i) (trains.get j) = true →
    (sol (trains.get i).train_id p).toNat + (sol (trains.get j).train_id p).toNat ≤ 1

/-- A valuation satisfies the CP-SAT model built by `solve_scheduling` iff it
meets every constraint the code adds: exactly-one per train id and mutual
exclusion per overlapping pair and platform.  No other constraint is built. -/
def satisfiesConstraints (trains : List TrainRec) (platforms : List String) (sol : Sol) : Prop :=
  (∀ t ∈ trains, exactlyOneHolds platforms sol t.train_id) ∧ mutexHolds trains platforms sol

/-- The five CP-SAT termination statuses recognised by `_get_status_name`. -/
inductive CpStatus
  | optimal
  | feasible
  | infeasible
  | unknown
  | model_invalid
deriving DecidableEq, Repr

/-- `RailwaySolver._get_status_name` (solver.py lines 124-133). -/
def get_status_name : CpStatus → String
  | .optimal => "OPTIMAL"
  | .feasible => "FEASIBLE"
  | .infeasible => "INFEASIBLE"
  | .unknown => "UNKNOWN"
  | .model_invalid => "MODEL_INVALID"

/-- Key iteration order of a Python dict whose keys were inserted in list
order: each key at its first occurrence.  `platform_vars` is iterated this way
in `_extract_solution`. -/
def firstUniqueKeysAux (seen : List String) : List String → List String
  | [] => []
  | x :: xs =>
    if x ∈ seen then firstUniqueKeysAux seen xs
    else x :: firstUniqueKeysAux (x :: seen) xs

def firstUniqueKeys (l : List String) : List String :=
  firstUniqueKeysAux [] l

/-- Extraction loop of `_extract_solution` (solver.py lines 109-116): for each
train id in dict order, the first platform in list order whose variable is
true becomes the assignment (`break`); an id with no true variable produces no
entry. -/
def extractAssignments (trains : List TrainRec) (platforms : List String) (sol : Sol) :
    List (String × String) :=
  (firstUniqueKeys (trains.map (fun t => t.train_id))).filterMap
    (fun id => (platforms.find? (fun p => sol id p)).map (fun p => (id, p)))

/-- The result dict assembled by `_extract_solution`. -/
structure SolveResult where
  status : String
  platform_assignments : List (String × String)
  objective_value : Option Int
deriving DecidableEq, Repr

/-- The objective the code minimizes is `sum(delay_minutes)` over constants
(solver.py lines 56-63), so the reported optimum is that constant sum. -/
def objectiveValue (trains : List TrainRec) : Int :=
  (trains.map (fun t => t.delay_minutes)).sum

/-- `RailwaySolver._extract_solution` (solver.py lines 100-122): assignments
and objective are filled only for OPTIMAL/FEASIBLE statuses. -/
def extract_solution (status : CpStatus) (trains : List TrainRec)
    (platforms : List String) (sol : Sol) : SolveResult :=
  if status = .optimal ∨ status = .feasible then
    { status := get_status_name status
      platform_assignments := extractAssignments trains platforms sol
      objective_value := some (objectiveValue trains) }
  else
    { status := get_status_name status
      platform_assignments := []
      objective_value := none }

/-- `RailwaySolver.solve_scheduling` (solver.py lines 21-68).  The code builds
the model — variables, exactly-one constraints, mutual-exclusion constraints,
objective — and hands it to the CP-SAT engine; no validation of the input
happens anywhere in the function.  The engine is external, so its answer (a
status and a valuation of the variables) is passed as a parameter; engine
honesty — an OPTIMAL/FEASIBLE answer satisfies `satisfiesConstraints` — is a
hypothesis of the theorems below. -/
def solve_scheduling (trains : List TrainRec) (platforms : List String)
    (engine : CpStatus × Sol) : SolveResult :=
  extract_solution engine.1 trains platforms engine.2

theorem mem_firstUniqueKeysAux (seen l : List String) (x : String) :
    x ∈ firstUniqueKeysAux seen l ↔ x ∈ l ∧ x ∉ seen := by
  induction l generalizing seen with
  | nil => simp [firstUniqueKeysAux]
  | cons y ys ih =>
    by_cases hy : y ∈ seen
    · simp only [firstUniqueKeysAux, if_pos hy, ih]
      constructor
      · rintro ⟨h1, h2⟩
        exact ⟨List.mem_cons_of_mem _ h1, h2⟩
      · rintro ⟨h1, h2⟩
        rcases List.mem_cons.mp h1 with rfl | h1'
        · exact absurd hy h2
        · exact ⟨h1', h2⟩
    · simp only [firstUniqueKeysAux, if_neg hy]
      constructor
      · intro hmem
        rcases List.mem_cons.mp hmem with rfl | h'
        · exact ⟨List.mem_cons_self .., hy⟩
        · rcases (ih (y :: seen)).mp h' with ⟨h1, h2⟩
          exact ⟨List.mem_cons_of_mem _ h1, fun hs => h2 (List.mem_cons_of_mem _ hs)⟩
      · rintro ⟨h1, h2⟩
        rcases List.mem_cons.mp h1 with rfl | h1'
        · exact List.mem_cons_self ..
        · by_cases hxy : x = y
          · subst hxy
            exact List.mem_cons_self ..
          · refine List.mem_cons_of_mem _ ((ih (y :: seen)).mpr ⟨h1', fun hs => ?_⟩)
            rcases List.mem_cons.mp hs with h | h
            · exact hxy h
            · exact h2 h

theorem mem_firstUniqueKeys (l : List String) (x : String) :
    x ∈ firstUniqueKeys l ↔ x ∈ l := by
  simp [firstUniqueKeys, mem_firstUniqueKeysAux]

theorem nodup_firstUniqueKeysAux (seen l : List String) :
    (firstUniqueKeysAux seen l).Nodup := by
  induction l generalizing seen with
  | nil => simp [firstUniqueKeysAux]
  | cons y ys ih =>
    by_cases hy : y ∈ seen
    · simpa only [firstUniqueKeysAux, if_pos hy] using ih seen
    · simp only [firstUniqueKeysAux, if_neg hy]
      refine List.nodup_cons.mpr ⟨fun hmem => ?_, ih _⟩
      exact ((mem_firstUniqueKeysAux _ _ _).mp hmem).2 (List.mem_cons_self ..)

theorem nodup_firstUniqueKeys (l : List String) : (firstUniqueKeys l).Nodup :=
  nodup_firstUniqueKeysAux [] l

theorem exists_true_of_sum_toNat_eq_one (sol : Sol) (id : String) (platforms : List String)
    (h : (platforms.map (fun p => (sol id p).toNat)).sum = 1) :
    ∃ p ∈ platforms, sol id p = true := by
  induction platforms with
  | nil => simp at h
  | cons q qs ih =>
    by_cases hq : sol id q = true
    · exact ⟨q, List.mem_cons_self .., hq⟩
    · have hq' : sol id q = false := by
        cases hqv : sol id q
        · rfl
        · exact absurd hqv hq
      rw [List.map_cons, List.sum_cons, hq'] at h
      simp only [Bool.toNat_false, Nat.zero_add] at h
      obtain ⟨p, hp, hps⟩ := ih h
      exact ⟨p, List.mem_cons_of_mem _ hp, hps⟩

/-- Membership in the extracted assignments pins the valuation: the pair's
platform is the first selected one, its variable is true, and it is one of the
input platforms. -/
theorem sol_true_of_mem_extract (trains : List TrainRec) (platforms : List String)
    (sol : Sol) (id q : String)
    (h : (id, q) ∈ extractAssignments trains platforms sol) :
    sol id q = true ∧ q ∈ platforms := by
  rcases List.mem_filterMap.mp h with ⟨id', _, hf⟩
  cases hfind : platforms.find? (fun p => sol id' p) with
  | none => rw [hfind] at hf; cases hf
  | some q' =>
    rw [hfind] at hf
    simp only [Option.map_some', Option.some.injEq, Prod.mk.injEq] at hf
    rcases hf with ⟨rfl, rfl⟩
    exact ⟨List.find?_some hfind, List.mem_of_find?_eq_some hfind⟩

theorem countP_key_zero (platforms : List String) (sol : Sol) (keys : List String)
    (id : String) (hid : id ∉ keys) :
    ((keys.filterMap
        (fun k => (platforms.find? (fun p => sol k p)).map (fun p => (k, p)))).countP
      (fun kv => decide (kv.1 = id))) = 0 := by
  induction keys with
  | nil => rfl
  | cons k ks ih =>
    have hk : k ≠ id := fun h => hid (h ▸ List.mem_cons_self ..)
    have hid' : id ∉ ks := fun h => hid (List.mem_cons_of_mem _ h)
    cases hfind : platforms.find? (fun p => sol k p) with
    | none =>
      rw [List.filterMap_cons_none (by simp [hfind])]
      exact ih hid'
    | some q =>
      have hstep :
          ((k :: ks).filterMap
            (fun k => (platforms.find? (fun p => sol k p)).map (fun p => (k, p)))) =
          (k, q) :: (ks.filterMap
            (fun k => (platforms.find? (fun p => sol k p)).map (fun p => (k, p)))) :=
        List.filterMap_cons_some (by rw [hfind]; rfl)
      rw [hstep, List.countP_cons_of_neg]
      · exact ih hid'
      · simpa using hk

theorem countP_key_one (platforms : List String) (sol : Sol) (keys : List String)
    (id : String) (hnd : keys.Nodup) (hid : id ∈ keys)
    (hsome : (platforms.find? (fun p => sol id p)).isSome) :
    ((keys.filterMap
        (fun k => (platforms.find? (fun p => sol k p)).map (fun p => (k, p)))).countP
      (fun kv => decide (kv.1 = id))) = 1 := by
  induction keys with
  | nil => cases hid
  | cons k ks ih =>
    rcases List.nodup_cons.mp hnd with ⟨hknotin, hnd'⟩
    rcases List.mem_cons.mp hid with rfl | hid'
    · obtain ⟨q, hq⟩ := Option.isSome_iff_exists.mp hsome
      have hstep :
          ((id :: ks).filterMap
            (fun k => (platforms.find? (fun p => sol k p)).map (fun p => (k, p)))) =
          (id, q) :: (ks.filterMap
            (fun k => (platforms.find? (fun p => sol k p)).map (fun p => (k, p)))) :=
        List.filterMap_cons_some (by rw [hq]; rfl)
      rw [hstep, List.countP_cons_of_pos]
      · rw [countP_key_zero _ _ _ _ hknotin]
      · simp
    · have hk : k ≠ id := fun h => hknotin (h ▸ hid')
      cases hfind : platforms.find? (fun p => sol k p) with
      | none =>
        rw [List.filterMap_cons_none (by simp [hfind])]
        exact ih hnd' hid'
      | some q =>
        have hstep :
            ((k :: ks).filterMap
              (fun k => (platforms.find? (fun p => sol k p)).map (fun p => (k, p)))) =
            (k, q) :: (ks.filterMap
              (fun k => (platforms.find? (fun p => sol k p)).map (fun p => (k, p)))) :=
          List.filterMap_cons_some (by rw [hfind]; rfl)
        rw [hstep, List.countP_cons_of_neg]
        · exact ih hnd' hid'
        · simpa using hk

instance decExactlyOneHolds (platforms : List String) (sol : Sol) (id : String) :
    Decidable (exactlyOneHolds platforms sol id) :=
  inferInstanceAs (Decidable ((platforms.map (fun p => (sol id p).toNat)).sum = 1))

instance decMutexHolds (trains : List TrainRec) (platforms : List String) (sol : Sol) :
    Decidable (mutexHolds trains platforms sol) :=
  inferInstanceAs (Decidable (∀ i j : Fin trains.length, i < j → ∀ p ∈ platforms,
    timesOverlap (trains.get i) (trains.get j) = true →
    (sol (trains.get i).train_id p).toNat + (sol (trains.get j).train_id p).toNat ≤ 1))

instance decSatisfiesConstraints (trains : List TrainRec) (platforms : List String) (sol : Sol) :
    Decidable (satisfiesConstraints trains platforms sol) :=
  inferInstanceAs (Decidable (_ ∧ _))

/-- C1: exact-solver soundness.  For well-formed trains, if the engine answers
OPTIMAL or FEASIBLE with a valuation satisfying every constraint the code
built, then two distinct trains both mapped to the same platform in
`platform_assignments` never conflict under `_times_overlap`. -/
theorem exact_solver_soundness (trains : List TrainRec) (platforms : List String)
    (status : CpStatus) (sol : Sol)
    (hwf : ∀ t ∈ trains, WellFormed t)
    (hst : status = .optimal ∨ status = .feasible)
    (hsat : satisfiesConstraints trains platforms sol)
    (i j : Fin trains.length) (hij : i ≠ j) (p : String)
    (hi : ((trains.get i).train_id, p) ∈
      (solve_scheduling trains platforms (status, sol)).platform_assignments)
    (hj : ((trains.get j).train_id, p) ∈
      (solve_scheduling trains platforms (status, sol)).platform_assignments) :
    timesOverlap (trains.get i) (trains.get j) = false := by
  have hassign : (solve_scheduling trains platforms (status, sol)).platform_assignments =
      extractAssignments trains platforms sol := by
    simp only [solve_scheduling, extract_solution, if_pos hst]
  rw [hassign] at hi hj
  obtain ⟨hsi, hpi⟩ := sol_true_of_mem_extract _ _ _ _ _ hi
  obtain ⟨hsj, _⟩ := sol_true_of_mem_extract _ _ _ _ _ hj
  cases hov : timesOverlap (trains.get i) (trains.get j) with
  | false => rfl
  | true =>
    exfalso
    rcases lt_or_gt_of_ne hij with hlt | hgt
    · have hle := hsat.2 i j hlt p hpi hov
      rw [hsi, hsj] at hle
      simp at hle
    · have hov' : timesOverlap (trains.get j) (trains.get i) = true := by
        rw [timesOverlap_comm]
        exact hov
      have hle := hsat.2 j i hgt p hpi hov'
      rw [hsi, hsj] at hle
      simp at hle

/-- A non-conflicting pair of well-formed trains used in concrete witnesses. -/
def trainA : TrainRec := ⟨"TA", some 0, some 10, 0⟩

def trainB : TrainRec := ⟨"TB", some 100, some 110, 0⟩

/-- The valuation assigning every train id to platform "P1". -/
def solP1 : Sol := fun _ p => decide (p = "P1")

/-- The valuation putting every decision variable to true. -/
def solTrue : Sol := fun _ _ => true

/-- Witness for C1 at a concrete input: both trains end up on "P1" and are
indeed conflict-free. -/
theorem exact_solver_soundness_witness :
    timesOverlap ([trainA, trainB].get ⟨0, by decide⟩) ([trainA, trainB].get ⟨1, by decide⟩)
      = false :=
  exact_solver_soundness [trainA, trainB] ["P1"] .optimal solP1
    (by
      intro t ht
      fin_cases ht
      · exact ⟨0, 10, rfl, rfl, by decide⟩
      · exact ⟨100, 110, rfl, rfl, by decide⟩)
    (Or.inl rfl) (by decide) ⟨0, by decide⟩ ⟨1, by decide⟩ (by decide) "P1"
    (by decide) (by decide)

/-- C4: exact-solver totality.  If the engine answers OPTIMAL or FEASIBLE with
a valuation satisfying the built constraints, every input train id appears
exactly once as a key of `platform_assignments`, mapped to a platform of the
input list.  For every other status `platform_assignments` is empty — that
conjunct holds unconditionally, for every input and valuation, satisfiable or
not (e.g. one train and zero platforms, where the engine reports
INFEASIBLE). -/
theorem exact_solver_totality (trains : List TrainRec) (platforms : List String)
    (status : CpStatus) (sol : Sol) :
    ((status = .optimal ∨ status = .feasible) →
      satisfiesConstraints trains platforms sol →
      ∀ t ∈ trains, ∃ q ∈ platforms,
        (t.train_id, q) ∈ (solve_scheduling trains platforms (status, sol)).platform_assignments ∧
        ((solve_scheduling trains platforms (status, sol)).platform_assignments.countP
          (fun kv => decide (kv.1 = t.train_id))) = 1) ∧
    (¬(status = .optimal ∨ status = .feasible) →
      (solve_scheduling trains platforms (status, sol)).platform_assignments = []) := by
  constructor
  · intro hst hsat t ht
    have hassign : (solve_scheduling trains platforms (status, sol)).platform_assignments =
        extractAssignments trains platforms sol := by
      simp only [solve_scheduling, extract_solution, if_pos hst]
    rw [hassign]
    obtain ⟨q0, hq0mem, hq0⟩ :=
      exists_true_of_sum_toNat_eq_one sol t.train_id platforms (hsat.1 t ht)
    have hsome : (platforms.find? (fun p => sol t.train_id p)).isSome :=
      List.find?_isSome.mpr ⟨q0, hq0mem, hq0⟩
    obtain ⟨q, hq⟩ := Option.isSome_iff_exists.mp hsome
    have hkey : t.train_id ∈ firstUniqueKeys (trains.map (fun t => t.train_id)) :=
      (mem_firstUniqueKeys _ _).mpr (List.mem_map.mpr ⟨t, ht, rfl⟩)
    refine ⟨q, List.mem_of_find?_eq_some hq, ?_, ?_⟩
    · refine List.mem_filterMap.mpr ⟨t.train_id, hkey, ?_⟩
      rw [hq]
      rfl
    · exact countP_key_one platforms sol _ t.train_id (nodup_firstUniqueKeys _) hkey hsome
  · intro hst
    simp only [solve_scheduling, extract_solution, if_neg hst]

/-- Witness for C4 at concrete inputs, exercising both conjuncts: an OPTIMAL
answer on a satisfiable model, and an INFEASIBLE status on an unsatisfiable
model (one train, zero platforms) yielding the empty mapping. -/
theorem exact_solver_totality_witness :
    (∃ q ∈ ["P1", "P2"],
      ("TA", q) ∈
        (solve_scheduling [trainA, trainB] ["P1", "P2"] (.optimal, solP1)).platform_assignments ∧
      ((solve_scheduling [trainA, trainB] ["P1", "P2"]
          (.optimal, solP1)).platform_assignments.countP
        (fun kv => decide (kv.1 = "TA"))) = 1) ∧
    (solve_scheduling [trainA] [] (.infeasible, solTrue)).platform_assignments = [] :=
  ⟨(exact_solver_totality [trainA, trainB] ["P1", "P2"] .optimal solP1).1
      (Or.inl rfl) (by decide) trainA (by decide),
   (exact_solver_totality [trainA] [] .infeasible solTrue).2 (by simp)⟩

/-- A malformed train row: arrival minute 10 is not strictly before departure
minute 5. -/
def badTrain : TrainRec := ⟨"T1", some 10, some 5, 0⟩

/-- C2 counterexample: a malformed model (a train with arrival ≥ departure) is
not rejected.  `solve_scheduling` builds the model anyway, the built constraint
set is satisfiable, and an honest OPTIMAL engine answer produces a result whose
status is "OPTIMAL" — not "MODEL_INVALID" — with a full assignment. -/
theorem no_validation_counterexample :
    (¬ WellFormed badTrain) ∧
    satisfiesConstraints [badTrain] ["P1"] solTrue ∧
    (solve_scheduling [badTrain] ["P1"] (.optimal, solTrue)).status = "OPTIMAL" ∧
    (solve_scheduling [badTrain] ["P1"] (.optimal, solTrue)).platform_assignments
      = [("T1", "P1")] := by
  refine ⟨?_, by decide, rfl, by decide⟩
  rintro ⟨a, d, ha, hd, hlt⟩
  simp only [badTrain, Option.some.injEq] at ha hd
  omega

/-- C2 amended: `solve_scheduling` performs no input validation.  (i) A model
containing a train with arrival ≥ departure is built normally: its constraint
set is satisfiable and an honest OPTIMAL answer yields status "OPTIMAL" with a
full assignment, never "MODEL_INVALID".  (ii) With at least one train and zero
platforms, the built exactly-one constraint is unsatisfiable, so an honest
engine reports INFEASIBLE — again not MODEL_INVALID. -/
theorem no_input_validation :
    (∀ (t : TrainRec) (a d : Int), t.arrival_time = some a → t.departure_time = some d →
      d ≤ a → ∀ pid : String,
        satisfiesConstraints [t] [pid] solTrue ∧
        (solve_scheduling [t] [pid] (.optimal, solTrue)).status = "OPTIMAL" ∧
        (solve_scheduling [t] [pid] (.optimal, solTrue)).platform_assignments
          = [(t.train_id, pid)]) ∧
    (∀ (t : TrainRec) (rest : List TrainRec) (sol : Sol),
      ¬ satisfiesConstraints (t :: rest) [] sol) := by
  constructor
  · intro t a d _ _ _ pid
    refine ⟨⟨?_, ?_⟩, rfl, rfl⟩
    · intro t' _
      simp [exactlyOneHolds, solTrue]
    · intro i j hij p hp
      have hi := i.isLt
      have hj := j.isLt
      simp only [List.length_cons, List.length_nil] at hi hj
      rw [Fin.lt_def] at hij
      omega
  · rintro t rest sol ⟨h1, _⟩
    have := h1 t (List.mem_cons_self ..)
    simp [exactlyOneHolds] at this

/-- Witness for C2's amended statement at the concrete malformed input. -/
theorem no_input_validation_witness :
    satisfiesConstraints [badTrain] ["PX"] solTrue ∧
    (solve_scheduling [badTrain] ["PX"] (.optimal, solTrue)).status = "OPTIMAL" ∧
    (solve_scheduling [badTrain] ["PX"] (.optimal, solTrue)).platform_assignments
      = [("T1", "PX")] :=
  no_input_validation.1 badTrain 10 5 rfl rfl (by decide) "PX"

/-- `Platform` dataclass from core/optimization/models.py (lines 23-29); the
maintenance window, when present, is a pair of integer minutes. -/
structure PlatformRec where
  platform_id : String
  capacity : Int := 1
  is_available : Bool := true
  maintenance_window : Option (Int × Int) := none
deriving DecidableEq, Repr

/-- Written after the spec's words, not after source code (no code in the
repository consumes `maintenance_window`): a maintenance window "behaves as a
phantom train occupying the platform", so a train conflicts with a window
exactly when the buffered conflict formula holds between the train's interval
and the window. -/
def specWindowConflict (t : TrainRec) (w : Int × Int) : Bool :=
  match t.arrival_time, t.departure_time with
  | some a, some d => overlapFormula a d w.1 w.2 bufferMinutes
  | _, _ => false

def maintTrain : TrainRec := ⟨"T1", some 10, some 20, 0⟩

def maintPlatform : PlatformRec := ⟨"P1", 1, true, some (0, 100)⟩

/-- C5 counterexample: the platform "P1" has maintenance window [0,100] and
train "T1" ([10,20]) conflicts with it, yet the constraint set built by
`solve_scheduling` is satisfied by the all-true valuation, and the honest
OPTIMAL answer assigns "T1" to "P1".  No `x[t][p] == 0` constraint exists. -/
theorem maintenance_counterexample :
    maintPlatform.maintenance_window = some (0, 100) ∧
    specWindowConflict maintTrain (0, 100) = true ∧
    satisfiesConstraints [maintTrain] [maintPlatform.platform_id] solTrue ∧
    (solve_scheduling [maintTrain] [maintPlatform.platform_id]
      (.optimal, solTrue)).status = "OPTIMAL" ∧
    (solve_scheduling [maintTrain] [maintPlatform.platform_id]
      (.optimal, solTrue)).platform_assignments = [("T1", "P1")] :=
  ⟨rfl, by decide, by decide, rfl, by decide⟩

/-- C5 amended: `solve_scheduling` consumes only platform id strings; no
constraint links a platform's maintenance window to the assignment variables,
so for every platform with a maintenance window and every train conflicting
with that window there is a valuation satisfying every built constraint whose
honest OPTIMAL answer assigns the train to that platform. -/
theorem maintenance_window_not_enforced (t : TrainRec) (P : PlatformRec) (w : Int × Int)
    (hw : P.maintenance_window = some w) (hconf : specWindowConflict t w = true) :
    ∃ sol : Sol, satisfiesConstraints [t] [P.platform_id] sol ∧
      (solve_scheduling [t] [P.platform_id] (.optimal, sol)).status = "OPTIMAL" ∧
      (solve_scheduling [t] [P.platform_id] (.optimal, sol)).platform_assignments
        = [(t.train_id, P.platform_id)] := by
  refine ⟨solTrue, ⟨?_, ?_⟩, rfl, rfl⟩
  · intro t' _
    simp [exactlyOneHolds, solTrue]
  · intro i j hij p hp
    have hi := i.isLt
    have hj := j.isLt
    simp only [List.length_cons, List.length_nil] at hi hj
    rw [Fin.lt_def] at hij
    omega

/-- Witness for C5's amended statement at the concrete conflicting input. -/
theorem maintenance_window_not_enforced_witness :
    ∃ sol : Sol, satisfiesConstraints [maintTrain] [maintPlatform.platform_id] sol ∧
      (solve_scheduling [maintTrain] [maintPlatform.platform_id]
        (.optimal, sol)).status = "OPTIMAL" ∧
      (solve_scheduling [maintTrain] [maintPlatform.platform_id]
        (.optimal, sol)).platform_assignments = [("T1", "P1")] :=
  maintenance_window_not_enforced maintTrain maintPlatform (0, 100) rfl (by decide)

/-- C10: `_times_overlap` is total over arbitrary rows and returns False
whenever any of the four timestamps fails to parse, so
`_add_time_constraints` silently omits the mutual-exclusion constraint for
such a pair: the pair's constraint holds vacuously for every valuation. -/
theorem times_overlap_total_on_parse_failure (t1 t2 : TrainRec)
    (h : t1.arrival_time = none ∨ t1.departure_time = none ∨
         t2.arrival_time = none ∨ t2.departure_time = none) :
    timesOverlap t1 t2 = false ∧
    ∀ (sol : Sol) (p : String),
      timesOverlap t1 t2 = true →
      (sol t1.train_id p).toNat + (sol t2.train_id p).toNat ≤ 1 := by
  have hov : timesOverlap t1 t2 = false := by
    unfold timesOverlap
    rcases ht1a : t1.arrival_time with _ | a1 <;>
      rcases ht1d : t1.departure_time with _ | d1 <;>
      rcases ht2a : t2.arrival_time with _ | a2 <;>
      rcases ht2d : t2.departure_time with _ | d2 <;>
      simp_all
  exact ⟨hov, fun sol p htrue => absurd htrue (by rw [hov]; simp)⟩

/-- Witness for C10 at a concrete input with an unparseable arrival. -/
theorem times_overlap_total_on_parse_failure_witness :
    timesOverlap ⟨"TX", none, some 5, 0⟩ trainA = false ∧
    ∀ (sol : Sol) (p : String),
      timesOverlap ⟨"TX", none, some 5, 0⟩ trainA = true →
      (sol "TX" p).toNat + (sol trainA.train_id p).toNat ≤ 1 :=
  times_overlap_total_on_parse_failure ⟨"TX", none, some 5, 0⟩ trainA (Or.inl rfl)

/-! ### The greedy heuristic: `run_optimization` (dashboards/dashboard.py) -/

/-- A row of the dashboard's trains DataFrame (dashboard.py lines 240-258).
Generated rows always carry parsed datetimes, so times are plain integer
minutes; `original_platform` is `none` for a null cell. -/
structure GTrain where
  train_id : String
  arrival_time : Int
  departure_time : Int
  priority : String
  original_platform : Option String
deriving DecidableEq, Repr

/-- The `priority_order` dict (dashboard.py line 330) read through
`Series.map`: a priority outside the dict maps to NaN, embedded as `none`. -/
def priority_order (p : String) : Option Int :=
  if p = "URGENT" then some 4
  else if p = "HIGH" then some 3
  else if p = "MEDIUM" then some 2
  else if p = "LOW" then some 1
  else none

/-- Comparator of the two-column sort at dashboard.py line 333:
`sort_values(['priority_score', 'arrival_time'], ascending=[False, True])`.
Row a precedes row b when a's score is larger, or the scores tie and a's
arrival is not later; a NaN score sorts last (pandas `na_position='last'`). -/
def gleB (a b : GTrain) : Bool :=
  match priority_order a.priority, priority_order b.priority with
  | some x, some y =>
    decide (y < x) || (decide (x = y) && decide (a.arrival_time ≤ b.arrival_time))
  | some _, none => true
  | none, some _ => false
  | none, none => decide (a.arrival_time ≤ b.arrival_time)

def gRel (a b : GTrain) : Prop := gleB a b = true

instance : DecidableRel gRel := fun a b => inferInstanceAs (Decidable (_ = true))

instance : IsTotal GTrain gRel where
  total a b := by
    unfold gRel gleB
    cases priority_order a.priority <;> cases priority_order b.priority <;> simp <;> omega

instance : IsTrans GTrain gRel where
  trans a b c hab hbc := by
    unfold gRel gleB at *
    revert hab hbc
    cases priority_order a.priority <;> cases priority_order b.priority <;>
      cases priority_order c.priority <;> intro hab hbc <;> simp_all <;> omega

/-- The sort key of a row: (priority score, arrival time). -/
def gKey (t : GTrain) : Option Int × Int := (priority_order t.priority, t.arrival_time)

/-- pandas' multi-column `sort_values` sorts through `numpy.lexsort`, a stable
sort; a stable insertion sort over the same total preorder produces the
identical list. -/
def sortTrains (df : List GTrain) : List GTrain := List.insertionSort gRel df

/-- The per-run occupancy log `platform_schedule` (dashboard.py line 325): a
list of committed `(arrival, departure, train_id)` triples per platform. -/
abbrev Schedule := String → List (Int × Int × String)

/-- `count_conflicts` (dashboard.py lines 453-463). -/
def count_conflicts (platform : String) (arrival departure : Int)
    (platform_schedule : Schedule) : Nat :=
  (platform_schedule platform).countP
    (fun e => !(decide (departure + bufferMinutes ≤ e.1) ||
                decide (e.2.1 + bufferMinutes ≤ arrival)))

/-- The mutable bookkeeping of the assignment loop (dashboard.py lines
323-327): the assignments dict, the reasons dict, the occupancy log, and the
two counters. -/
structure GreedyState where
  assignments : List (String × String)
  assignment_reasons : List (String × String)
  platform_schedule : Schedule
  conflicts_resolved : Nat
  priority_changes : Nat

/-- Python dict assignment `d[k] = v`: replaces the value in place when the
key exists, appends otherwise. -/
def dictSet (l : List (String × String)) (k v : String) : List (String × String) :=
  if l.any (fun kv => decide (kv.1 = k)) then
    l.map (fun kv => if kv.1 = k then (k, v) else kv)
  else l ++ [(k, v)]

/-- The commit at dashboard.py lines 376-379 (and 382-385): record the
assignment and its reason, and append the train's interval to the chosen
platform's occupancy log. -/
def commitAssign (st : GreedyState) (t : GTrain) (bp : String) (reason : String) :
    GreedyState :=
  { st with
    assignments := dictSet st.assignments t.train_id bp
    assignment_reasons := dictSet st.assignment_reasons t.train_id reason
    platform_schedule := fun q =>
      if q = bp then
        st.platform_schedule q ++ [(t.arrival_time, t.departure_time, t.train_id)]
      else st.platform_schedule q }

/-- The best-alternative scan (dashboard.py lines 357-363): fold over the
platform list keeping the first platform achieving the strict minimum
conflict count; `min_conflicts` starts at `float('inf')`, embedded as
`none`. -/
def scanPlatforms (platforms : List String) (arrival departure : Int)
    (sched : Schedule) : Option String × Option Nat :=
  platforms.foldl
    (fun acc p =>
      let c := count_conflicts p arrival departure sched
      match acc.2 with
      | none => (some p, some c)
      | some m => if c < m then (some p, some c) else acc)
    ((none : Option String), (none : Option Nat))

/-- dashboard.py lines 342-373: pick the candidate platform and reason text
for one train, and compute the updated counter values.  The original platform
is kept when it is non-null, listed, and currently conflict-free; otherwise
the scan selects the platform minimizing conflicts, updating
`conflicts_resolved` for a positive minimum and `priority_changes` (plus a
reason suffix) for URGENT/HIGH trains.  The assignments, reasons and schedule
are untouched here. -/
def chooseBest (platforms : List String) (st : GreedyState) (t : GTrain) :
    Option String × String × Nat × Nat :=
  let origBest : Option String × String :=
    match t.original_platform with
    | some op =>
      if op ∈ platforms then
        let c := count_conflicts op t.arrival_time t.departure_time st.platform_schedule
        if c = 0 then (some op, s!"Kept original assignment {op} (no conflicts)")
        else ((none : Option String), s!"Original platform {op} had {c} conflicts, reassigning")
      else ((none : Option String), "")
    | none => ((none : Option String), "")
  match origBest with
  | (some bp, reason) => (some bp, reason, st.conflicts_resolved, st.priority_changes)
  | (none, reason0) =>
    match scanPlatforms platforms t.arrival_time t.departure_time st.platform_schedule with
    | (some bp, some m) =>
      let reason1 :=
        if 0 < m then reason0 ++ s!" -> Assigned to {bp} (minimized conflicts: {m})"
        else reason0 ++ s!" -> Assigned to {bp} (conflict-free)"
      let cr := if 0 < m then st.conflicts_resolved + m else st.conflicts_resolved
      let pr := t.priority
      if pr = "URGENT" ∨ pr = "HIGH" then
        (some bp, reason1 ++ s!" [Priority {pr} train]", cr, st.priority_changes + 1)
      else (some bp, reason1, cr, st.priority_changes)
    | (_, _) => ((none : Option String), reason0, st.conflicts_resolved, st.priority_changes)

/-- The emergency fallback (dashboard.py lines 381-385):
`platforms[len(assignments) % len(platforms)]`; `none` embeds the
ZeroDivisionError raised when the platform list is empty. -/
def emergencyAssign (platforms : List String) (st : GreedyState) (t : GTrain) :
    Option GreedyState :=
  (platforms.get? (st.assignments.length % platforms.length)).map
    (fun fp => commitAssign st t fp s!"Emergency assignment to {fp} (all platforms busy)")

/-- One iteration of the assignment loop (dashboard.py lines 335-385) for one
train.  Python's `if best_platform:` tests string truthiness, so an
empty-string platform name also falls into the emergency branch. -/
def greedyStep (platforms : List String) (st : GreedyState) (t : GTrain) :
    Option GreedyState :=
  match chooseBest platforms st t with
  | (best, reason, cr, pc) =>
    let st' : GreedyState :=
      { st with conflicts_resolved := cr, priority_changes := pc }
    match best with
    | some bp =>
      if bp ≠ "" then some (commitAssign st' t bp reason)
      else emergencyAssign platforms st' t
    | none => emergencyAssign platforms st' t

/-- The assignment loop of `run_optimization` (dashboard.py lines 321-385):
sort, then fold `greedyStep` over the sorted trains, aborting if an iteration
raises.  The platform list is a parameter so the specified zero-platform case
can be stated; the source hardcodes `['P1','P2','P3','P4','P5']`. -/
def optimize (df : List GTrain) (platforms : List String) : Option GreedyState :=
  (sortTrains df).foldlM (greedyStep platforms) ⟨[], [], fun _ => [], 0, 0⟩

def dashboardPlatforms : List String := ["P1", "P2", "P3", "P4", "P5"]

/-- `run_optimization` with the hardcoded platform list. -/
def run_optimization (df : List GTrain) : Option GreedyState :=
  optimize df dashboardPlatforms

theorem gRel_of_key_eq {a b : GTrain} (h : gKey a = gKey b) : gRel a b := by
  have h1 : priority_order a.priority = priority_order b.priority :=
    congrArg Prod.fst h
  have h2 : a.arrival_time = b.arrival_time := congrArg Prod.snd h
  unfold gRel gleB
  rw [h1, h2]
  cases priority_order b.priority with
  | none => simp
  | some x => simp

theorem filter_orderedInsert_key (a : GTrain) (l : List GTrain) (k : Option Int × Int) :
    (List.orderedInsert gRel a l).filter (fun t => decide (gKey t = k)) =
      if gKey a = k then a :: l.filter (fun t => decide (gKey t = k))
      else l.filter (fun t => decide (gKey t = k)) := by
  induction l with
  | nil =>
    by_cases hk : gKey a = k <;> simp [List.orderedInsert, List.filter_cons, hk]
  | cons b bs ih =>
    by_cases hab : gRel a b
    · simp only [List.orderedInsert, if_pos hab]
      by_cases hk : gKey a = k <;> simp [List.filter_cons, hk]
    · simp only [List.orderedInsert, if_neg hab]
      by_cases hk : gKey a = k
      · have hbk : ¬ gKey b = k := fun hbk => hab (gRel_of_key_eq (hk.trans hbk.symm))
        rw [List.filter_cons_of_neg (by simpa using hbk), ih, if_pos hk,
          List.filter_cons_of_neg (by simpa using hbk), if_pos hk]
      · by_cases hbk : gKey b = k
        · rw [List.filter_cons_of_pos (by simpa using hbk), ih, if_neg hk,
            List.filter_cons_of_pos (by simpa using hbk), if_neg hk]
        · rw [List.filter_cons_of_neg (by simpa using hbk), ih, if_neg hk,
            List.filter_cons_of_neg (by simpa using hbk), if_neg hk]

theorem filter_insertionSort_key (df : List GTrain) (k : Option Int × Int) :
    (sortTrains df).filter (fun t => decide (gKey t = k)) =
      df.filter (fun t => decide (gKey t = k)) := by
  induction df with
  | nil => rfl
  | cons a l ih =>
    unfold sortTrains at ih ⊢
    show (List.orderedInsert gRel a (List.insertionSort gRel l)).filter _ = _
    rw [filter_orderedInsert_key, ih]
    by_cases hk : gKey a = k
    · rw [if_pos hk, List.filter_cons_of_pos (by simpa using hk)]
    · rw [if_neg hk, List.filter_cons_of_neg (by simpa using hk)]

/-- C8: the greedy scheduler processes trains in the order of the two-column
stable sort: the processed list is a permutation of the input, it is sorted by
priority score descending then arrival ascending (`gRel`), and rows with equal
sort keys keep their relative input order (stability, stated per key fiber). -/
theorem greedy_sort_order (df : List GTrain) :
    (sortTrains df).Perm df ∧
    List.Sorted gRel (sortTrains df) ∧
    ∀ k : Option Int × Int,
      (sortTrains df).filter (fun t => decide (gKey t = k)) =
        df.filter (fun t => decide (gKey t = k)) :=
  ⟨List.perm_insertionSort gRel df, List.sorted_insertionSort gRel df,
   fun k => filter_insertionSort_key df k⟩

theorem mem_dictSet_self (l : List (String × String)) (k v : String) :
    (k, v) ∈ dictSet l k v := by
  unfold dictSet
  by_cases h : l.any (fun kv => decide (kv.1 = k)) = true
  · rw [if_pos h]
    obtain ⟨kv, hkv, hk⟩ := List.any_eq_true.mp h
    refine List.mem_map.mpr ⟨kv, hkv, ?_⟩
    rw [if_pos (by simpa using hk)]
  · rw [if_neg h]
    exact List.mem_append_right _ (List.mem_singleton.mpr rfl)

theorem mem_dictSet_of_mem (l : List (String × String)) (k v k' p' : String)
    (h : (k', p') ∈ l) : ∃ p'', (k', p'') ∈ dictSet l k v := by
  unfold dictSet
  by_cases hany : l.any (fun kv => decide (kv.1 = k)) = true
  · rw [if_pos hany]
    by_cases hk : k' = k
    · subst hk
      exact ⟨v, List.mem_map.mpr ⟨(k', p'), h, by simp⟩⟩
    · exact ⟨p', List.mem_map.mpr ⟨(k', p'), h, by simp [hk]⟩⟩
  · rw [if_neg hany]
    exact ⟨p', List.mem_append_left _ h⟩

theorem emergencyAssign_some (platforms : List String) (hne : platforms ≠ [])
    (st : GreedyState) (t : GTrain) :
    ∃ fp, emergencyAssign platforms st t =
      some (commitAssign st t fp
        ("Emergency assignment to " ++ fp ++ " (all platforms busy)")) := by
  unfold emergencyAssign
  have hlen : 0 < platforms.length := List.length_pos.mpr hne
  have hidx : st.assignments.length % platforms.length < platforms.length :=
    Nat.mod_lt _ hlen
  rw [List.get?_eq_get hidx]
  exact ⟨_, rfl⟩

theorem greedyStep_some (platforms : List String) (hne : platforms ≠ [])
    (st : GreedyState) (t : GTrain) :
    ∃ v st', greedyStep platforms st t = some st' ∧
      st'.assignments = dictSet st.assignments t.train_id v := by
  rcases hcb : chooseBest platforms st t with ⟨best, reason, cr, pc⟩
  cases best with
  | some bp =>
    have hstep : greedyStep platforms st t =
        if bp ≠ "" then
          some (commitAssign { st with conflicts_resolved := cr, priority_changes := pc }
            t bp reason)
        else emergencyAssign platforms
          { st with conflicts_resolved := cr, priority_changes := pc } t := by
      unfold greedyStep
      simp only [hcb]
    by_cases hbp : bp ≠ ""
    · rw [hstep, if_pos hbp]
      exact ⟨bp, _, rfl, rfl⟩
    · obtain ⟨fp, hfp⟩ := emergencyAssign_some platforms hne
        { st with conflicts_resolved := cr, priority_changes := pc } t
      rw [hstep, if_neg hbp, hfp]
      exact ⟨fp, _, rfl, rfl⟩
  | none =>
    have hstep : greedyStep platforms st t =
        emergencyAssign platforms
          { st with conflicts_resolved := cr, priority_changes := pc } t := by
      unfold greedyStep
      simp only [hcb]
    obtain ⟨fp, hfp⟩ := emergencyAssign_some platforms hne
      { st with conflicts_resolved := cr, priority_changes := pc } t
    rw [hstep, hfp]
    exact ⟨fp, _, rfl, rfl⟩

theorem optimize_total_aux (platforms : List String) (hne : platforms ≠ []) :
    ∀ (ts : List GTrain) (st : GreedyState),
      ∃ st', ts.foldlM (greedyStep platforms) st = some st' ∧
        (∀ k p, (k, p) ∈ st.assignments → ∃ p', (k, p') ∈ st'.assignments) ∧
        (∀ t ∈ ts, ∃ p, (t.train_id, p) ∈ st'.assignments) := by
  intro ts
  induction ts with
  | nil =>
    intro st
    exact ⟨st, rfl, fun k p h => ⟨p, h⟩, by simp⟩
  | cons t ts ih =>
    intro st
    obtain ⟨v, st1, hstep, hass⟩ := greedyStep_some platforms hne st t
    obtain ⟨st', hfold, hpres, hall⟩ := ih st1
    refine ⟨st', ?_, ?_, ?_⟩
    · rw [List.foldlM_cons, hstep]
      exact hfold
    · intro k p h
      obtain ⟨p'', h''⟩ := mem_dictSet_of_mem st.assignments t.train_id v k p h
      exact hpres k p'' (by rw [hass]; exact h'')
    · intro u hu
      rcases List.mem_cons.mp hu with rfl | hu'
      · exact hpres u.train_id v (by rw [hass]; exact mem_dictSet_self ..)
      · exact hall u hu'

/-- A single HIGH-priority train used in concrete greedy witnesses. -/
def gT1 : GTrain := ⟨"T1", 0, 30, "HIGH", none⟩

/-- C3 counterexample: with an empty platform set, the greedy loop does not
return an assignment for the train — the emergency fallback evaluates
`platforms[len(assignments) % len(platforms)]`, a ZeroDivisionError, and the
run aborts instead of producing an assignments mapping. -/
theorem greedy_empty_platforms_counterexample :
    optimize [gT1] [] = none := rfl

/-- C3 amended: for every train list and a NONEMPTY platform list (the source
hardcodes five platforms), the greedy loop completes and its assignments dict
contains an entry for every input train id; the zero-platform degradation the
claim describes does not exist — an empty platform list aborts the run. -/
theorem greedy_totality_nonempty (df : List GTrain) (platforms : List String)
    (hne : platforms ≠ []) :
    ∃ st : GreedyState, optimize df platforms = some st ∧
      ∀ t ∈ df, ∃ p, (t.train_id, p) ∈ st.assignments := by
  obtain ⟨st', hfold, _, hall⟩ :=
    optimize_total_aux platforms hne (sortTrains df) ⟨[], [], fun _ => [], 0, 0⟩
  refine ⟨st', hfold, fun t ht => hall t ?_⟩
  exact ((List.perm_insertionSort gRel df).mem_iff).mpr ht

/-- Witness for C3's amended statement at a concrete input. -/
theorem greedy_totality_nonempty_witness :
    ∃ st : GreedyState, optimize [gT1] ["P1"] = some st ∧
      ∀ t ∈ [gT1], ∃ p, (t.train_id, p) ∈ st.assignments :=
  greedy_totality_nonempty [gT1] ["P1"] (by decide)

/-- C9: greedy determinism.  The embedded loop is a pure function of the train
table and the platform list — every Python-level source of order (dict
iteration, the two-column sort) is deterministic — so two runs on an identical
input yield identical assignments and identical reasons. -/
theorem greedy_determinism (df1 df2 : List GTrain) (platforms : List String)
    (h : df1 = df2) :
    (optimize df1 platforms).map (fun st => st.assignments) =
      (optimize df2 platforms).map (fun st => st.assignments) ∧
    (optimize df1 platforms).map (fun st => st.assignment_reasons) =
      (optimize df2 platforms).map (fun st => st.assignment_reasons) := by
  subst h
  exact ⟨rfl, rfl⟩

/-- Witness for C9 at a concrete input. -/
theorem greedy_determinism_witness :
    (optimize [gT1] dashboardPlatforms).map (fun st => st.assignments) =
      (optimize [gT1] dashboardPlatforms).map (fun st => st.assignments) ∧
    (optimize [gT1] dashboardPlatforms).map (fun st => st.assignment_reasons) =
      (optimize [gT1] dashboardPlatforms).map (fun st => st.assignment_reasons) :=
  greedy_determinism [gT1] [gT1] dashboardPlatforms rfl

end Railway
